import Mathlib

/-!
Verification development for the follow-then-unfollow script (`main.py`).

The embedding models:
* the per-item username normalization (`u.strip().lstrip("@")`, main.py:201),
* first-occurrence deduplication (`list(dict.fromkeys(...))`, main.py:223/241),
* the list loader (main.py:190-241),
* the follow pass and monitoring loop of `follow_then_unfollow_loop`
  (main.py:246-289), and
* the three action primitives `follow_profile`, `is_user_following_me`,
  `unfollow_profile` (main.py:68-151) with their try/except structure.

Machine strings are Lean `String` (a wrapper around `List Char`); Python's
`str.strip()` is modelled over the ASCII whitespace characters it strips.
-/

namespace IGBot

/-- The whitespace characters removed by Python's `str.strip()`
(restricted to the ASCII ones). -/
def pyIsSpace (c : Char) : Bool :=
  c == ' ' || c == '\t' || c == '\n' || c == '\r' || c == '\x0b' || c == '\x0c'

/-- `l` with its leading and trailing whitespace removed (Python `str.strip()`). -/
def stripChars (l : List Char) : List Char :=
  ((l.dropWhile pyIsSpace).reverse.dropWhile pyIsSpace).reverse

/-- Python `s.strip()`. -/
def pyStrip (s : String) : String :=
  ⟨stripChars s.data⟩

/-- Python `s.lstrip("@")`: removes the whole leading run of `@` characters. -/
def pyLstripAt (s : String) : String :=
  ⟨s.data.dropWhile (· == '@')⟩

/-- The loader's per-item normalization: `u.strip().lstrip("@")` (main.py:201). -/
def normalize (s : String) : String :=
  pyLstripAt (pyStrip s)

/-- Whether `needle` occurs as a contiguous run inside `hay`
(Python's `needle in hay` on strings, over char lists). -/
def listContains (needle : List Char) : List Char → Bool
  | [] => needle.isEmpty
  | c :: t => needle.isPrefixOf (c :: t) || listContains needle t

/-- Python `needle in hay` for strings. -/
def strContains (hay needle : String) : Bool :=
  listContains needle.data hay.data

/-- First-occurrence deduplication with an accumulator of already-seen
strings; models `dict.fromkeys` insertion order. -/
def dedupeAux (seen : List String) : List String → List String
  | [] => []
  | x :: xs => if x ∈ seen then dedupeAux seen xs else x :: dedupeAux (x :: seen) xs

/-- Python `list(dict.fromkeys(xs))`: keep the first occurrence of each
element, preserving order (main.py:223 and main.py:241). -/
def dedupe (xs : List String) : List String :=
  dedupeAux [] xs

/-- One raw item of the parsed JSON array: a string, a record (with the
`username` field's string value when present and a string, main.py:206),
or any other JSON value. -/
inductive JItem where
  | str (s : String)
  | obj (username : Option String)
  | other
deriving DecidableEq

/-- The parsed JSON input: an array of items, or any non-array value. -/
inductive JsonData where
  | arr (items : List JItem)
  | nonArray
deriving DecidableEq

/-- The fatal list-loading failures (main.py:196, 210, 225, 230), named as
in the spec's taxonomy (`mixedParseError` is the mixed-branch variant of
"could not parse any usernames", main.py:225). -/
inductive LoadError where
  | formatError
  | emptyListError
  | noUsernamesError
  | mixedParseError
deriving DecidableEq

/-- `isinstance(x, str)`. -/
def JItem.isStr : JItem → Bool
  | .str _ => true
  | _ => false

/-- `isinstance(x, dict)`. -/
def JItem.isObj : JItem → Bool
  | .obj _ => true
  | _ => false

/-- The underlying string of a string item. -/
def getStr : JItem → Option String
  | .str s => some s
  | _ => none

/-- The record's `username` field when it exists and is a string. -/
def getUname : JItem → Option String
  | .obj (some u) => some u
  | _ => none

/-- The mixed-branch coercion (main.py:218-222): strings and records with a
string `username` field are normalized, everything else is skipped. -/
def coerceItem : JItem → Option String
  | .str s => some (normalize s)
  | .obj (some u) => some (normalize u)
  | _ => none

/-- All-strings branch, pre-dedup (main.py:201):
`[u.strip().lstrip("@") for u in data if u.strip()]` — the filter tests the
raw item's `strip()`, the output is the normalized item. -/
def stringsPre (items : List JItem) : List String :=
  ((items.filterMap getStr).filter (fun u => pyStrip u != "")).map normalize

/-- All-records branch, pre-dedup (main.py:204-208): collect normalized
`username` fields, then drop the ones that normalized to empty. -/
def objsPre (items : List JItem) : List String :=
  ((items.filterMap getUname).map normalize).filter (fun u => u != "")

/-- Mixed branch (main.py:217-223): coerce, drop empties, dedupe. -/
def mixedPre (items : List JItem) : List String :=
  dedupe ((items.filterMap coerceItem).filter (fun u => u != ""))

/-- The List Loader (main.py:194-241), including the final
`list(dict.fromkeys(usernames))` at main.py:241 which runs on every
successful branch. -/
def loadList : JsonData → Except LoadError (List String)
  | .nonArray => .error .formatError
  | .arr items =>
    if items.isEmpty then .error .emptyListError
    else if items.all JItem.isStr then .ok (dedupe (stringsPre items))
    else if items.all JItem.isObj then
      if (objsPre items).isEmpty then .error .noUsernamesError
      else .ok (dedupe (objsPre items))
    else
      if (mixedPre items).isEmpty then .error .mixedParseError
      else .ok (dedupe (mixedPre items))

/-- The pre-dedup normalized sequence the taken branch produces; the
loader's successful output is `dedupe (preNorm items)`. -/
def preNorm (items : List JItem) : List String :=
  if items.all JItem.isStr then stringsPre items
  else if items.all JItem.isObj then objsPre items
  else mixedPre items

/-- One line of the append-only jsonl log, restricted to the fields the
claims are about (`log_action`, main.py:38-41; entries built at
main.py:250, 272, 276, 279). -/
inductive LogEntry where
  | followAttempt (username : String) (performed : Bool) (index total : Nat)
  | unfollowOnFollowback (username : String) (unfollowed : Bool)
  | checkFollowback (username : String) (followsMe : Bool)
  | errorEntry (username : String) (msg : String)
deriving DecidableEq

/-- The follow pass body (main.py:248-254), iterating `enumerate(usernames,
start=1)`.  Each iteration appends one `follow_attempt` entry, then sleeps,
then evaluates `idx % batch_size`.  The second component is `true` when the
pass crashed out of `follow_then_unfollow_loop`: a `KeyboardInterrupt`
delivered at iteration `intr`'s sleep, or a `ZeroDivisionError` from
`idx % batch_size` when `batch = 0`; both cut the pass short right after
the iteration's log write. -/
def followAux (f : String → Bool) (batch : Nat) (intr : Option Nat) (total : Nat) :
    Nat → List String → List LogEntry × Bool
  | _, [] => ([], false)
  | idx, u :: rest =>
    if intr = some idx then ([LogEntry.followAttempt u (f u) idx total], true)
    else if batch = 0 then ([LogEntry.followAttempt u (f u) idx total], true)
    else
      (LogEntry.followAttempt u (f u) idx total ::
          (followAux f batch intr total (idx + 1) rest).1,
        (followAux f batch intr total (idx + 1) rest).2)

/-- The FOLLOWING_PHASE over the target list (main.py:246-256).
`f` gives each `follow_profile` outcome; `intr` optionally interrupts at a
given 1-based iteration. -/
def followPhase (f : String → Bool) (batch : Nat) (intr : Option Nat)
    (usernames : List String) : List LogEntry × Bool :=
  followAux f batch intr usernames.length 1 usernames

/-- The observable outcome of one monitoring-loop body for one username
(main.py:268-279): an exception caught by the per-user handler, a negative
follow-back check, or a positive check together with the `unfollow_profile`
result. -/
inductive CheckOutcome where
  | exn (msg : String)
  | notFollowing
  | followsBack (unfollowed : Bool)
deriving DecidableEq

/-- One username's processing in a monitoring pass: whether it stays in
`followed_set`, and the log entry written (main.py:269-279). -/
def monitorStep (o : CheckOutcome) (u : String) : Bool × LogEntry :=
  match o with
  | .exn m => (true, .errorEntry u m)
  | .notFollowing => (true, .checkFollowback u false)
  | .followsBack unf => (!unf, .unfollowOnFollowback u unf)

/-- One full monitoring pass over `list(followed_set)` (main.py:267-280);
the set is modelled as a duplicate-free list in iteration order.  Returns
the surviving working set and the pass's log. -/
def monitorPass (o : String → CheckOutcome) : List String → List String × List LogEntry
  | [] => ([], [])
  | u :: rest =>
    (if (monitorStep (o u) u).1 then u :: (monitorPass o rest).1 else (monitorPass o rest).1,
      (monitorStep (o u) u).2 :: (monitorPass o rest).2)

/-- The working set after `n` monitoring passes, with per-pass outcome
oracle `O`. -/
def wsAfter (O : Nat → String → CheckOutcome) (ws : List String) : Nat → List String
  | 0 => ws
  | n + 1 => (monitorPass (O n) (wsAfter O ws n)).1

/-- The monitoring loop (main.py:261-289) run for at most `fuel` passes,
starting at pass number `passIdx`.  Result: `some true` if the loop exited
(empty working set, or `KeyboardInterrupt` at pass `intr` caught at
main.py:285) — the `finally` at main.py:287 then closes the session —
paired with the log written; `none` when the loop is still running when
the fuel runs out (not an exit path). -/
def monitorRun (O : Nat → String → CheckOutcome) (intr : Option Nat) :
    Nat → Nat → List String → Option Bool × List LogEntry
  | _, 0, _ => (none, [])
  | passIdx, fuel + 1, ws =>
    if ws = [] then (some true, [])
    else if intr = some passIdx then (some true, [])
    else
      ((monitorRun O intr (passIdx + 1) fuel (monitorPass (O passIdx) ws).1).1,
        (monitorPass (O passIdx) ws).2 ++
          (monitorRun O intr (passIdx + 1) fuel (monitorPass (O passIdx) ws).1).2)

/-- The environment `follow_then_unfollow_loop` runs against, from the
list-file check (main.py:184) onward: whether the list file exists, the
`json.load` outcome (`.error` = parse exception, main.py:234), the
`follow_profile` outcome per username, the batch size, an optional
interrupt during the follow pass, the monitoring outcomes per pass and
username, and an optional interrupt during monitoring. -/
structure Env where
  listFileExists : Bool
  parsed : Except Unit JsonData
  followRes : String → Bool
  batch : Nat
  followIntr : Option Nat
  monitorO : Nat → String → CheckOutcome
  monitorIntr : Option Nat

/-- The Controller from the list-file check to process exit
(main.py:183-289).  First component: `some closed` when the function
exited, where `closed` records whether `context.close()`/`browser.close()`
ran before the exit; `none` when monitoring is still running after `fuel`
passes.  Every list-loading exit closes explicitly (main.py:186-187,
197-198, 211-212, 226-227, 231-232, 236-237); a crash during the follow
pass escapes with no enclosing `try`, so nothing closes; every monitoring
exit goes through the `finally` at main.py:287-289.  Second component: the
log written. -/
def runController (env : Env) (fuel : Nat) : Option Bool × List LogEntry :=
  if env.listFileExists = false then (some true, [])
  else
    match env.parsed with
    | .error _ => (some true, [])
    | .ok d =>
      match loadList d with
      | .error _ => (some true, [])
      | .ok usernames =>
        if (followPhase env.followRes env.batch env.followIntr usernames).2 then
          (some false, (followPhase env.followRes env.batch env.followIntr usernames).1)
        else
          ((monitorRun env.monitorO env.monitorIntr 0 fuel usernames).1,
            (followPhase env.followRes env.batch env.followIntr usernames).1 ++
              (monitorRun env.monitorO env.monitorIntr 0 fuel usernames).2)

/-- A Python exception as the primitives see it: a
`PlaywrightTimeoutError`, or any other `Exception` (both are `Exception`
subclasses, so `except Exception` catches both while
`except PlaywrightTimeoutError` catches only the first). -/
inductive PyExn where
  | timeoutError
  | otherError (msg : String)
deriving DecidableEq

/-- One candidate follow button (main.py:82-92): the outcomes of
`is_visible()`, `inner_text()`, and `scroll_into_view_if_needed()` +
`click()`. -/
structure BtnF where
  visible : Except PyExn Bool
  text : Except PyExn String
  click : Except PyExn Unit

/-- A profile page as `follow_profile` observes it: `page.goto`
(main.py:71), `wait_for_selector("header")` (main.py:76), and the
`locator(...)`/`count()` step yielding the button list (main.py:82-83). -/
structure PageF where
  goto : Except PyExn Unit
  waitHeader : Except PyExn Unit
  buttons : Except PyExn (List BtnF)

/-- The text test at main.py:88:
`"Follow" in text and "Following" not in text and "Requested" not in text`. -/
def followTextOk (t : String) : Bool :=
  strContains t "Follow" && !strContains t "Following" && !strContains t "Requested"

/-- The button loop of `follow_profile` (main.py:84-93), inside the
`try` block: click the first visible button whose stripped text passes
`followTextOk` and return `True`; fall off the loop with `False`. -/
def followLoop : List BtnF → Except PyExn Bool
  | [] => .ok false
  | b :: rest => do
    let v ← b.visible
    if v then do
      let t ← b.text
      if followTextOk (pyStrip t) then do
        b.click
        pure true
      else followLoop rest
    else followLoop rest

/-- The `try: goto ... except Exception: return False` prologue shared by
all three primitives (main.py:70-74, 100-104, 120-124). -/
def gotoGuard (g : Except PyExn Unit) (k : Except PyExn Bool) : Except PyExn Bool :=
  match g with
  | .error _ => .ok false
  | .ok _ => k

/-- The header wait with its `except PlaywrightTimeoutError: return False`
(main.py:75-79, 105-108, 125-129): a timeout yields `False`, any other
exception propagates uncaught. -/
def headerGuard (w : Except PyExn Unit) (k : Except PyExn Bool) : Except PyExn Bool :=
  match w with
  | .error .timeoutError => .ok false
  | .error e => .error e
  | .ok _ => k

/-- A body wrapped in `try: ... except Exception: return False`
(main.py:81-96, 130-151) or, for the check, `except Exception: pass`
followed by `return False` (main.py:109-116). -/
def catchAllBool (r : Except PyExn Bool) : Except PyExn Bool :=
  match r with
  | .error _ => .ok false
  | .ok b => .ok b

/-- `follow_profile` (main.py:68-96): goto guarded by `except Exception`,
header wait guarded by `except PlaywrightTimeoutError` only, button block
guarded by `except Exception`. -/
def follow_profile (pg : PageF) : Except PyExn Bool :=
  gotoGuard pg.goto (headerGuard pg.waitHeader
    (catchAllBool (do followLoop (← pg.buttons))))

/-- A profile page as `is_user_following_me` observes it: `goto`
(main.py:101), the header wait (main.py:106), and the truthiness of the
two `query_selector` probes (main.py:110, 112). -/
structure PageC where
  goto : Except PyExn Unit
  waitHeader : Except PyExn Unit
  queryFollowsYou : Except PyExn Bool
  queryHeaderDiv : Except PyExn Bool

/-- The probe block of `is_user_following_me` (main.py:109-116): the two
indicator probes, first truthy one returns `True`, otherwise `False`. -/
def checkBody (pg : PageC) : Except PyExn Bool := do
  let q1 ← pg.queryFollowsYou
  if q1 then pure true
  else do
    let q2 ← pg.queryHeaderDiv
    if q2 then pure true else pure false

/-- `is_user_following_me` (main.py:98-116).  The header wait catches only
`PlaywrightTimeoutError` (main.py:107-108); the probe block's
`except Exception: pass` (main.py:114-115) falls through to
`return False`. -/
def is_user_following_me (pg : PageC) : Except PyExn Bool :=
  gotoGuard pg.goto (headerGuard pg.waitHeader (catchAllBool (checkBody pg)))

/-- One candidate Following/Requested button (main.py:133-147): the
outcomes of `is_visible()`, `scroll_into_view_if_needed()` + `click()`,
the confirm-dialog wait (main.py:139), the confirm button's
`is_visible()` (main.py:141) and its `click()` (main.py:142). -/
structure BtnU where
  visible : Except PyExn Bool
  click : Except PyExn Unit
  confirmWait : Except PyExn Unit
  confirmVisible : Except PyExn Bool
  confirmClick : Except PyExn Unit

/-- A profile page as `unfollow_profile` observes it. -/
structure PageU where
  goto : Except PyExn Unit
  waitHeader : Except PyExn Unit
  buttons : Except PyExn (List BtnU)

/-- The button loop of `unfollow_profile` (main.py:133-148).  After
clicking a visible button, the inner `try` (main.py:138-147) catches only
`PlaywrightTimeoutError` — that is the best-effort `return True`; a found
and visible confirm button is clicked (`return True`); a found but
invisible confirm falls through and the loop continues; any other
exception propagates to the outer handler. -/
def unfollowLoop : List BtnU → Except PyExn Bool
  | [] => .ok false
  | b :: rest => do
    let v ← b.visible
    if v then do
      b.click
      match (do
        b.confirmWait
        let cv ← b.confirmVisible
        if cv then do
          b.confirmClick
          pure true
        else pure false : Except PyExn Bool) with
      | .error .timeoutError => pure true
      | .error e => .error e
      | .ok true => pure true
      | .ok false => unfollowLoop rest
    else unfollowLoop rest

/-- `unfollow_profile` (main.py:118-151): `goto` caught by
`except Exception` (main.py:122-124); header wait catches only
`PlaywrightTimeoutError` (main.py:127-129); the button block is wrapped in
`except Exception` (main.py:149-151). -/
def unfollow_profile (pg : PageU) : Except PyExn Bool :=
  gotoGuard pg.goto (headerGuard pg.waitHeader
    (catchAllBool (do unfollowLoop (← pg.buttons))))

/-- The realizable outcomes of `wait_for_selector("header", ...)` with its
fixed, valid selector: the element appears, or the wait times out with a
`PlaywrightTimeoutError` (the missing-element failure mode). -/
def headerOutcome (r : Except PyExn Unit) : Prop :=
  r = .ok () ∨ r = .error .timeoutError

/-- A run with a one-element list and batch size 0: the follow pass hits
`ZeroDivisionError` at `idx % batch_size` (main.py:252) outside any
`try`, so the function exits without closing the session. -/
def envBatchZero : Env :=
  { listFileExists := true, parsed := .ok (.arr [.str "a"]), followRes := fun _ => false,
    batch := 0, followIntr := none, monitorO := fun _ _ => .notFollowing,
    monitorIntr := none }

/-- A normal run: one target who follows back and is unfollowed on the
first monitoring pass, emptying the working set. -/
def envMonitor : Env :=
  { listFileExists := true, parsed := .ok (.arr [.str "a"]), followRes := fun _ => true,
    batch := 10, followIntr := none, monitorO := fun _ _ => .followsBack true,
    monitorIntr := none }

/-- A run whose list file parses to a non-array JSON value. -/
def envFormatErr : Env :=
  { listFileExists := true, parsed := .ok .nonArray, followRes := fun _ => true,
    batch := 10, followIntr := none, monitorO := fun _ _ => .notFollowing,
    monitorIntr := none }

/-- A run whose list file holds `[" "]`: a nonempty array of strings that
all trim to empty. -/
def envWhitespace : Env :=
  { listFileExists := true, parsed := .ok (.arr [.str " "]), followRes := fun _ => true,
    batch := 0, followIntr := none, monitorO := fun _ _ => .notFollowing,
    monitorIntr := none }

/-- A follow page whose navigation fails. -/
def pageF0 : PageF :=
  { goto := .error (.otherError "net"), waitHeader := .ok (), buttons := .ok [] }

/-- A check page whose navigation fails. -/
def pageC0 : PageC :=
  { goto := .error (.otherError "net"), waitHeader := .ok (),
    queryFollowsYou := .ok false, queryHeaderDiv := .ok false }

/-- An unfollow page whose navigation times out. -/
def pageU0 : PageU :=
  { goto := .error .timeoutError, waitHeader := .ok (), buttons := .ok [] }

theorem mem_dedupeAux : ∀ (xs seen : List String) (x : String),
    x ∈ dedupeAux seen xs ↔ x ∈ xs ∧ x ∉ seen := by
  intro xs
  induction xs with
  | nil => intro seen x; simp [dedupeAux]
  | cons y ys ih =>
    intro seen x
    by_cases hy : y ∈ seen
    · rw [dedupeAux, if_pos hy, ih]
      constructor
      · exact fun h => ⟨List.mem_cons_of_mem _ h.1, h.2⟩
      · rintro ⟨hx, hs⟩
        rcases List.mem_cons.mp hx with rfl | hx2
        · exact absurd hy hs
        · exact ⟨hx2, hs⟩
    · rw [dedupeAux, if_neg hy]
      simp only [List.mem_cons, ih]
      by_cases hxy : x = y
      · subst hxy; simp [hy]
      · simp [hxy]

theorem nodup_dedupeAux : ∀ (xs seen : List String), (dedupeAux seen xs).Nodup := by
  intro xs
  induction xs with
  | nil => intro seen; simp [dedupeAux]
  | cons y ys ih =>
    intro seen
    by_cases hy : y ∈ seen
    · rw [dedupeAux, if_pos hy]; exact ih _
    · rw [dedupeAux, if_neg hy]
      refine List.nodup_cons.mpr ⟨?_, ih _⟩
      intro hmem
      exact ((mem_dedupeAux ys (y :: seen) y).mp hmem).2 (List.mem_cons_self y seen)

theorem pairwise_dedupeAux : ∀ (xs seen : List String),
    (dedupeAux seen xs).Pairwise (fun a b => xs.indexOf a < xs.indexOf b) := by
  intro xs
  induction xs with
  | nil => intro seen; simp [dedupeAux]
  | cons y ys ih =>
    intro seen
    by_cases hy : y ∈ seen
    · rw [dedupeAux, if_pos hy]
      refine List.Pairwise.imp_of_mem ?_ (ih seen)
      intro a b ha hb hab
      have ha2 := (mem_dedupeAux ys seen a).mp ha
      have hb2 := (mem_dedupeAux ys seen b).mp hb
      have hya : y ≠ a := fun h => ha2.2 (h ▸ hy)
      have hyb : y ≠ b := fun h => hb2.2 (h ▸ hy)
      rw [List.indexOf_cons_ne _ hya, List.indexOf_cons_ne _ hyb]
      exact Nat.succ_lt_succ hab
    · rw [dedupeAux, if_neg hy]
      refine List.pairwise_cons.mpr ⟨?_, ?_⟩
      · intro b hb
        have hb2 := (mem_dedupeAux ys (y :: seen) b).mp hb
        have hyb : y ≠ b := by
          intro h
          exact hb2.2 (by rw [← h]; exact List.mem_cons_self y seen)
        rw [List.indexOf_cons_self, List.indexOf_cons_ne _ hyb]
        exact Nat.succ_pos _
      · refine List.Pairwise.imp_of_mem ?_ (ih (y :: seen))
        intro a b ha hb hab
        have ha2 := (mem_dedupeAux ys (y :: seen) a).mp ha
        have hb2 := (mem_dedupeAux ys (y :: seen) b).mp hb
        have hya : y ≠ a := by
          intro h
          exact ha2.2 (by rw [← h]; exact List.mem_cons_self y seen)
        have hyb : y ≠ b := by
          intro h
          exact hb2.2 (by rw [← h]; exact List.mem_cons_self y seen)
        rw [List.indexOf_cons_ne _ hya, List.indexOf_cons_ne _ hyb]
        exact Nat.succ_lt_succ hab

theorem dedupeAux_eq_self : ∀ (xs seen : List String), xs.Nodup →
    (∀ x ∈ xs, x ∉ seen) → dedupeAux seen xs = xs := by
  intro xs
  induction xs with
  | nil => intro seen _ _; rfl
  | cons y ys ih =>
    intro seen hnd hdisj
    rw [dedupeAux, if_neg (hdisj y (List.mem_cons_self y ys))]
    congr 1
    refine ih _ (List.nodup_cons.mp hnd).2 ?_
    intro x hx hmem
    rcases List.mem_cons.mp hmem with rfl | h2
    · exact (List.nodup_cons.mp hnd).1 hx
    · exact hdisj x (List.mem_cons_of_mem _ hx) h2

theorem mem_dedupe (xs : List String) (x : String) : x ∈ dedupe xs ↔ x ∈ xs := by
  rw [dedupe, mem_dedupeAux]
  simp

theorem nodup_dedupe (xs : List String) : (dedupe xs).Nodup :=
  nodup_dedupeAux xs []

theorem pairwise_dedupe (xs : List String) :
    (dedupe xs).Pairwise (fun a b => xs.indexOf a < xs.indexOf b) :=
  pairwise_dedupeAux xs []

theorem dedupe_eq_self (xs : List String) (h : xs.Nodup) : dedupe xs = xs :=
  dedupeAux_eq_self xs [] h (by simp)

theorem loadList_ok_eq {items : List JItem} {us : List String}
    (h : loadList (JsonData.arr items) = .ok us) : us = dedupe (preNorm items) := by
  by_cases hE : items.isEmpty
  · simp [loadList, hE] at h
  · by_cases hS : items.all JItem.isStr
    · simp [loadList, hE, hS] at h
      simp [preNorm, hS]
      exact h.symm
    · by_cases hO : items.all JItem.isObj
      · by_cases hOE : (objsPre items).isEmpty
        · simp [loadList, hE, hS, hO, hOE] at h
        · simp [loadList, hE, hS, hO, hOE] at h
          simp [preNorm, hS, hO]
          exact h.symm
      · by_cases hME : (mixedPre items).isEmpty
        · simp [loadList, hE, hS, hO, hME] at h
        · simp [loadList, hE, hS, hO, hME] at h
          simp [preNorm, hS, hO]
          exact h.symm

theorem followAux_no_crash (f : String → Bool) (batch total : Nat) (hb : batch ≠ 0) :
    ∀ (rest : List String) (idx : Nat),
    followAux f batch none total idx rest =
      ((List.enumFrom idx rest).map
        (fun p => LogEntry.followAttempt p.2 (f p.2) p.1 total), false) := by
  intro rest
  induction rest with
  | nil => intro idx; rfl
  | cons u us ih =>
    intro idx
    rw [followAux]
    simp only [reduceCtorEq, if_false, if_neg hb, ih (idx + 1)]
    rfl

theorem followPhase_no_crash (f : String → Bool) (batch : Nat) (us : List String)
    (hb : batch ≠ 0) :
    followPhase f batch none us =
      ((List.enumFrom 1 us).map
        (fun p => LogEntry.followAttempt p.2 (f p.2) p.1 us.length), false) :=
  followAux_no_crash f batch us.length hb us 1

theorem monitorStep_keeps {o : CheckOutcome} (u : String)
    (h : o ≠ CheckOutcome.followsBack true) : (monitorStep o u).1 = true := by
  cases o with
  | exn m => rfl
  | notFollowing => rfl
  | followsBack b =>
    cases b with
    | true => exact absurd rfl h
    | false => rfl

theorem monitorPass_removal (o : String → CheckOutcome) :
    ∀ (ws : List String) (u : String), u ∈ ws → u ∉ (monitorPass o ws).1 →
      o u = CheckOutcome.followsBack true := by
  intro ws
  induction ws with
  | nil => intro u h; exact absurd h (List.not_mem_nil u)
  | cons v rest ih =>
    intro u hmem hnot
    by_cases hou : o u = CheckOutcome.followsBack true
    · exact hou
    · exfalso
      rcases List.mem_cons.mp hmem with rfl | h2
      · have hk := monitorStep_keeps u hou
        rw [monitorPass] at hnot
        simp only [hk, if_true] at hnot
        exact hnot (List.mem_cons_self _ _)
      · have hr : u ∉ (monitorPass o rest).1 := by
          intro hin
          apply hnot
          rw [monitorPass]
          dsimp only
          split
          · exact List.mem_cons_of_mem _ hin
          · exact hin
        exact hou (ih u h2 hr)

theorem monitorPass_subset (o : String → CheckOutcome) :
    ∀ (ws : List String) (u : String), u ∈ (monitorPass o ws).1 → u ∈ ws := by
  intro ws
  induction ws with
  | nil => intro u h; exact absurd h (List.not_mem_nil u)
  | cons v rest ih =>
    intro u h
    rw [monitorPass] at h
    dsimp only at h
    by_cases hk : (monitorStep (o v) v).1 = true
    · rw [if_pos hk] at h
      rcases List.mem_cons.mp h with rfl | h2
      · exact List.mem_cons_self _ _
      · exact List.mem_cons_of_mem _ (ih u h2)
    · rw [if_neg hk] at h
      exact List.mem_cons_of_mem _ (ih u h)

theorem monitorPass_length (o : String → CheckOutcome) :
    ∀ ws : List String, (monitorPass o ws).1.length ≤ ws.length := by
  intro ws
  induction ws with
  | nil => exact Nat.le_refl _
  | cons v rest ih =>
    rw [monitorPass]
    dsimp only
    split
    · exact Nat.succ_le_succ ih
    · exact Nat.le_succ_of_le ih

theorem wsAfter_length (O : Nat → String → CheckOutcome) (ws : List String) (n : Nat) :
    (wsAfter O ws (n + 1)).length ≤ (wsAfter O ws n).length :=
  monitorPass_length (O n) (wsAfter O ws n)

theorem wsAfter_not_mem (O : Nat → String → CheckOutcome) (ws : List String) (u : String) :
    ∀ n m : Nat, u ∉ wsAfter O ws n → u ∉ wsAfter O ws (n + m) := by
  intro n m
  induction m with
  | zero => exact fun h => h
  | succ m ih =>
    intro h hin
    exact ih h (monitorPass_subset (O (n + m)) (wsAfter O ws (n + m)) u hin)

theorem monitorRun_not_some_false (O : Nat → String → CheckOutcome) (intr : Option Nat) :
    ∀ (fuel passIdx : Nat) (ws : List String),
      (monitorRun O intr passIdx fuel ws).1 ≠ some false := by
  intro fuel
  induction fuel with
  | zero => intro passIdx ws h; exact Option.noConfusion h
  | succ fuel ih =>
    intro passIdx ws
    rw [monitorRun]
    split
    · intro h; exact Bool.noConfusion (Option.some.inj h)
    · split
      · intro h; exact Bool.noConfusion (Option.some.inj h)
      · exact ih (passIdx + 1) (monitorPass (O passIdx) ws).1

theorem takeWhile_at_eq_replicate (l : List Char) :
    l.takeWhile (· == '@') = List.replicate (l.takeWhile (· == '@')).length '@' := by
  refine List.eq_replicate_of_mem ?_
  intro b hb
  have h2 := List.mem_takeWhile_imp hb
  simpa using h2

theorem head?_dropWhile_at : ∀ (l : List Char) (c : Char),
    (l.dropWhile (· == '@')).head? = some c → (c == '@') = false := by
  intro l
  induction l with
  | nil => intro c h; exact Option.noConfusion h
  | cons d t ih =>
    intro c h
    rw [List.dropWhile_cons] at h
    by_cases hd : (d == '@') = true
    · rw [if_pos hd] at h
      exact ih c h
    · rw [if_neg hd] at h
      rw [← Option.some.inj h]
      exact Bool.eq_false_iff.mpr hd

theorem gotoGuard_isOk {g : Except PyExn Unit} {k : Except PyExn Bool}
    (h : ∃ b, k = .ok b) : ∃ b, gotoGuard g k = .ok b := by
  cases g with
  | error e => exact ⟨false, rfl⟩
  | ok u => exact h

theorem gotoGuard_error {g : Except PyExn Unit} (k : Except PyExn Bool) (e : PyExn)
    (h : g = .error e) : gotoGuard g k = .ok false := by
  rw [h]; rfl

theorem headerGuard_isOk {w : Except PyExn Unit} {k : Except PyExn Bool}
    (hw : headerOutcome w) (h : ∃ b, k = .ok b) : ∃ b, headerGuard w k = .ok b := by
  rcases hw with hw | hw
  · rw [hw]; exact h
  · rw [hw]; exact ⟨false, rfl⟩

theorem catchAllBool_isOk (r : Except PyExn Bool) : ∃ b, catchAllBool r = .ok b := by
  cases r with
  | error e => exact ⟨false, rfl⟩
  | ok b => exact ⟨b, rfl⟩

/-- Claim C1, counterexample: the claim says the List Loader output never
contains empty strings, but the all-strings branch filters on the raw
item's `strip()` and only then removes the leading `@` run, so the input
`["@"]` produces the output `[""]`. -/
theorem c1_empty_string_in_output :
    ¬ (∀ (d : JsonData) (us : List String), loadList d = .ok us → ("" : String) ∉ us) :=
  fun h => h (.arr [.str "@"]) [""] rfl (List.mem_singleton_self "")

/-- Claim C1 (amended): every successful List Loader output is
duplicate-free and lists the distinct normalized usernames in order of
first occurrence in the taken branch's normalized sequence, and
`["@a","b","a"]` produces `["a","b"]`; the no-empty-strings part holds for
the record and mixed input variants, while a pure-strings input item that
trims to a nonempty run of `@` yields an empty-string entry. -/
theorem c1_loader_nodup_first_seen_order :
    loadList (.arr [.str "@a", .str "b", .str "a"]) = .ok ["a", "b"] ∧
    ∀ (items : List JItem) (us : List String), loadList (.arr items) = .ok us →
      us.Nodup ∧ (∀ x, x ∈ us ↔ x ∈ preNorm items) ∧
      us.Pairwise (fun a b => (preNorm items).indexOf a < (preNorm items).indexOf b) ∧
      (items.all JItem.isStr = false → ("" : String) ∉ us) := by
  refine ⟨rfl, ?_⟩
  intro items us h
  have heq : us = dedupe (preNorm items) := loadList_ok_eq h
  subst heq
  refine ⟨nodup_dedupe _, fun x => mem_dedupe _ x, pairwise_dedupe _, ?_⟩
  intro hS hmem
  rw [mem_dedupe] at hmem
  rw [preNorm, if_neg (by simp [hS])] at hmem
  by_cases hO : items.all JItem.isObj
  · rw [if_pos hO, objsPre] at hmem
    have h2 := List.of_mem_filter hmem
    simp at h2
  · rw [if_neg hO, mixedPre, mem_dedupe] at hmem
    have h2 := List.of_mem_filter hmem
    simp at h2

/-- Claim C1, witness: the amended theorem applied to the spec's example
input. -/
theorem c1_loader_witness :
    (["a", "b"] : List String).Nodup ∧
    (∀ x, x ∈ (["a", "b"] : List String) ↔
      x ∈ preNorm [JItem.str "@a", JItem.str "b", JItem.str "a"]) ∧
    (["a", "b"] : List String).Pairwise
      (fun a b => (preNorm [JItem.str "@a", JItem.str "b", JItem.str "a"]).indexOf a <
        (preNorm [JItem.str "@a", JItem.str "b", JItem.str "a"]).indexOf b) ∧
    ([JItem.str "@a", JItem.str "b", JItem.str "a"].all JItem.isStr = false →
      ("" : String) ∉ (["a", "b"] : List String)) :=
  c1_loader_nodup_first_seen_order.2 [JItem.str "@a", JItem.str "b", JItem.str "a"]
    ["a", "b"] rfl

/-- Claim C7, counterexample: normalization strips the whole leading run
of `@` (Python `lstrip("@")`), not a single character: `"@@a"` normalizes
to `"a"`, not to `"@a"` as the claim requires. -/
theorem c7_single_at_cex :
    normalize "@@a" = "a" ∧ normalize "@@a" ≠ "@a" ∧
    loadList (.arr [.str "@@a"]) = .ok ["a"] :=
  ⟨by decide, by decide, rfl⟩

/-- Claim C7 (amended): per-item normalization trims surrounding
whitespace and then strips the entire leading run of `@` characters: the
trimmed item is a (possibly empty) block of `@`s followed by the
normalized result, which never starts with `@`. -/
theorem c7_normalize_strips_leading_run : ∀ s : String,
    ∃ k, (pyStrip s).data = List.replicate k '@' ++ (normalize s).data ∧
      (normalize s).data.head? ≠ some '@' := by
  intro s
  refine ⟨((pyStrip s).data.takeWhile (· == '@')).length, ?_, ?_⟩
  · have hd : (normalize s).data = (pyStrip s).data.dropWhile (· == '@') := rfl
    rw [hd, ← takeWhile_at_eq_replicate]
    exact (List.takeWhile_append_dropWhile _ _).symm
  · intro h
    have hd : (normalize s).data = (pyStrip s).data.dropWhile (· == '@') := rfl
    rw [hd] at h
    have h2 := head?_dropWhile_at (pyStrip s).data '@' h
    simp at h2

/-- Claim C7, witness: the amended characterization at `" @@a "`. -/
theorem c7_normalize_witness :
    ∃ k, (pyStrip " @@a ").data = List.replicate k '@' ++ (normalize " @@a ").data ∧
      (normalize " @@a ").data.head? ≠ some '@' :=
  c7_normalize_strips_leading_run " @@a "

/-- Claim C8, counterexample: re-running the List Loader on its own output
is not the identity: `["@"]` loads to `[""]`, and loading `[""]` yields
`[]` (the whitespace filter now drops the already-empty item). -/
theorem c8_idempotence_cex :
    ¬ (∀ (d : JsonData) (ys : List String), loadList d = .ok ys →
        loadList (.arr (ys.map JItem.str)) = .ok ys) := by
  intro h
  have h1 : loadList (.arr [JItem.str "@"]) = .ok [""] := rfl
  have h2 := h (.arr [JItem.str "@"]) [""] h1
  have h3 : loadList (.arr (([""] : List String).map JItem.str)) = .ok [] := rfl
  rw [h3] at h2
  exact absurd (Except.ok.inj h2) (by decide)

/-- Claim C8 (amended): the List Loader is idempotent on every nonempty
output all of whose items are fixed points of normalization and nonempty
— re-loading such an output returns it unchanged. -/
theorem c8_idempotent_on_fixed_outputs :
    ∀ (d : JsonData) (ys : List String), loadList d = .ok ys → ys ≠ [] →
      (∀ y ∈ ys, normalize y = y ∧ y ≠ "") →
      loadList (.arr (ys.map JItem.str)) = .ok ys := by
  intro d ys h hne hfix
  have hnd : ys.Nodup := by
    cases d with
    | nonArray => exact absurd h (by simp [loadList])
    | arr items =>
      rw [loadList_ok_eq h]
      exact nodup_dedupe _
  have hE : (ys.map JItem.str).isEmpty = false := by
    cases ys with
    | nil => exact absurd rfl hne
    | cons a t => rfl
  have hS : (ys.map JItem.str).all JItem.isStr = true := by
    rw [List.all_eq_true]
    intro x hx
    rcases List.mem_map.mp hx with ⟨y, _, rfl⟩
    rfl
  have hget : (ys.map JItem.str).filterMap getStr = ys := by
    rw [List.filterMap_map]
    simp [Function.comp_def, getStr]
  have hfilter : ys.filter (fun u => pyStrip u != "") = ys := by
    refine List.filter_eq_self.mpr ?_
    intro y hy
    rw [bne_iff_ne]
    intro hps
    apply (hfix y hy).2
    rw [← (hfix y hy).1, normalize, hps]
    rfl
  have hmapn : ys.map normalize = ys := by
    have hc : ys.map normalize = ys.map id :=
      List.map_congr_left (fun y hy => (hfix y hy).1)
    rw [hc, List.map_id]
  have hpre : stringsPre (ys.map JItem.str) = ys := by
    rw [stringsPre, hget, hfilter, hmapn]
  simp only [loadList, hE, hS, Bool.false_eq_true, if_false, if_true]
  rw [hpre, dedupe_eq_self ys hnd]

/-- Claim C8, witness: the amended theorem applied to the already-fixed
output `["a"]`. -/
theorem c8_idempotent_witness :
    loadList (.arr ((["a"] : List String).map JItem.str)) = .ok ["a"] :=
  c8_idempotent_on_fixed_outputs (.arr [JItem.str "a"]) ["a"] rfl (by decide) (by decide)

/-- Claim C2: in MONITORING_PHASE a username leaves the working set only
when the follow-back check returned true and the subsequent unfollow
returned true; each pass only shrinks the set; any username absent after
pass `n` is still absent after every later pass. -/
theorem c2_working_set_removal_invariants :
    ∀ (o : String → CheckOutcome) (ws : List String),
      (∀ u, u ∈ ws → u ∉ (monitorPass o ws).1 → o u = CheckOutcome.followsBack true) ∧
      (monitorPass o ws).1.length ≤ ws.length ∧
      (∀ u, u ∈ (monitorPass o ws).1 → u ∈ ws) ∧
      (∀ (O : Nat → String → CheckOutcome) (n m : Nat),
        (wsAfter O ws (n + 1)).length ≤ (wsAfter O ws n).length ∧
        (∀ u, u ∉ wsAfter O ws n → u ∉ wsAfter O ws (n + m))) :=
  fun o ws =>
    ⟨monitorPass_removal o ws, monitorPass_length o ws, monitorPass_subset o ws,
      fun O n m => ⟨wsAfter_length O ws n, fun u hu => wsAfter_not_mem O ws u n m hu⟩⟩

/-- Claim C2, witness: with the outcome "follows back and unfollow
succeeded", the removal clause applies to `"a"` in the singleton working
set. -/
theorem c2_working_set_witness :
    (fun _ => CheckOutcome.followsBack true) "a" = CheckOutcome.followsBack true :=
  (c2_working_set_removal_invariants (fun _ => CheckOutcome.followsBack true) ["a"]).1 "a"
    (List.mem_singleton_self "a") (by decide)

/-- Claim C3: with a positive batch size, FOLLOWING_PHASE runs over the
whole target list regardless of the per-user follow outcomes, appending
exactly one `follow_attempt` entry per username in list order. -/
theorem c3_follow_phase_logs_every_target :
    ∀ (f : String → Bool) (batch : Nat) (us : List String), 1 ≤ batch →
      (followPhase f batch none us).1 =
        (List.enumFrom 1 us).map
          (fun p => LogEntry.followAttempt p.2 (f p.2) p.1 us.length) ∧
      (followPhase f batch none us).1.length = us.length ∧
      (followPhase f batch none us).2 = false := by
  intro f batch us hb
  have hb0 : batch ≠ 0 := Nat.one_le_iff_ne_zero.mp hb
  rw [followPhase_no_crash f batch us hb0]
  exact ⟨rfl, by rw [List.length_map, List.enumFrom_length], rfl⟩

/-- Claim C3, witness: the default batch size over a two-element list with
every follow failing. -/
theorem c3_follow_phase_witness :
    (followPhase (fun _ => false) 10 none ["a", "b"]).1 =
      (List.enumFrom 1 ["a", "b"]).map
        (fun p => LogEntry.followAttempt p.2 ((fun _ => false) p.2) p.1
          (["a", "b"] : List String).length) ∧
    (followPhase (fun _ => false) 10 none ["a", "b"]).1.length =
      (["a", "b"] : List String).length ∧
    (followPhase (fun _ => false) 10 none ["a", "b"]).2 = false :=
  c3_follow_phase_logs_every_target (fun _ => false) 10 ["a", "b"] (by decide)

/-- Claim C9: with batch size 0 the follow pass crashes with a
`ZeroDivisionError` at `idx % batch_size` during the first attempt (one
`follow_attempt` entry is written first); with any batch size ≥ 1 the
computation is defined and the phase completes over the whole list. -/
theorem c9_batch_zero_division :
    (∀ (f : String → Bool) (u : String) (rest : List String),
      followPhase f 0 none (u :: rest) =
        ([LogEntry.followAttempt u (f u) 1 (u :: rest).length], true)) ∧
    (∀ (f : String → Bool) (batch : Nat) (us : List String), 1 ≤ batch →
      (followPhase f batch none us).2 = false ∧
      (followPhase f batch none us).1.length = us.length) := by
  constructor
  · intro f u rest
    rfl
  · intro f batch us hb
    have hb0 : batch ≠ 0 := Nat.one_le_iff_ne_zero.mp hb
    rw [followPhase_no_crash f batch us hb0]
    exact ⟨rfl, by rw [List.length_map, List.enumFrom_length]⟩

/-- Claim C9, witness: both halves at a singleton list. -/
theorem c9_batch_zero_witness :
    followPhase (fun _ => true) 0 none ["a"] =
      ([LogEntry.followAttempt "a" true 1 1], true) ∧
    ((followPhase (fun _ => true) 10 none ["a"]).2 = false ∧
      (followPhase (fun _ => true) 10 none ["a"]).1.length =
        (["a"] : List String).length) :=
  ⟨c9_batch_zero_division.1 (fun _ => true) "a" [],
    c9_batch_zero_division.2 (fun _ => true) 10 ["a"] (by decide)⟩

/-- Claim C4: over the primitives' failure modes — navigation failure at
`goto`, missing element (the header wait's timeout, absent or invisible
buttons, falsy probes), and selector errors raised inside the guarded
locator/query blocks — each primitive returns a boolean rather than
propagating an exception, and a navigation failure yields `False`. -/
theorem c4_primitives_return_bool :
    ∀ (pf : PageF) (pc : PageC) (pu : PageU),
      headerOutcome pf.waitHeader → headerOutcome pc.waitHeader →
      headerOutcome pu.waitHeader →
      (∃ b, follow_profile pf = .ok b) ∧
      (∃ b, is_user_following_me pc = .ok b) ∧
      (∃ b, unfollow_profile pu = .ok b) ∧
      (∀ e, pf.goto = .error e → follow_profile pf = .ok false) ∧
      (∀ e, pc.goto = .error e → is_user_following_me pc = .ok false) ∧
      (∀ e, pu.goto = .error e → unfollow_profile pu = .ok false) := by
  intro pf pc pu hf hc hu
  refine ⟨?_, ?_, ?_, ?_, ?_, ?_⟩
  · exact gotoGuard_isOk (headerGuard_isOk hf (catchAllBool_isOk _))
  · exact gotoGuard_isOk (headerGuard_isOk hc (catchAllBool_isOk _))
  · exact gotoGuard_isOk (headerGuard_isOk hu (catchAllBool_isOk _))
  · exact fun e he => gotoGuard_error _ e he
  · exact fun e he => gotoGuard_error _ e he
  · exact fun e he => gotoGuard_error _ e he

/-- Claim C4, witness: pages whose navigation fails produce `.ok false`
from all three primitives. -/
theorem c4_primitives_witness :
    follow_profile pageF0 = .ok false ∧
    is_user_following_me pageC0 = .ok false ∧
    unfollow_profile pageU0 = .ok false := by
  have h := c4_primitives_return_bool pageF0 pageC0 pageU0
    (Or.inl rfl) (Or.inl rfl) (Or.inl rfl)
  exact ⟨h.2.2.2.1 (.otherError "net") rfl, h.2.2.2.2.1 (.otherError "net") rfl,
    h.2.2.2.2.2 .timeoutError rfl⟩

/-- Claim C5: a non-array input fails with the format error; an empty
array fails with the empty-list error; an all-records array with no
usable `username` field fails with the no-usernames error; and on any
load error the Controller closes the session and exits without a single
log entry — FOLLOWING_PHASE is never entered. -/
theorem c5_loader_error_taxonomy :
    loadList .nonArray = .error .formatError ∧
    loadList (.arr []) = .error .emptyListError ∧
    (∀ items : List JItem, items ≠ [] →
      (∀ i ∈ items, JItem.isObj i = true) →
      (∀ i ∈ items, ∀ u, getUname i = some u → normalize u = "") →
      loadList (.arr items) = .error .noUsernamesError) ∧
    (∀ (env : Env) (fuel : Nat) (d : JsonData) (e : LoadError),
      env.parsed = .ok d → loadList d = .error e →
      runController env fuel = (some true, [])) := by
  refine ⟨rfl, rfl, ?_, ?_⟩
  · intro items hne hobj huse
    have hE : items.isEmpty = false := by
      cases items with
      | nil => exact absurd rfl hne
      | cons i t => rfl
    have hS : items.all JItem.isStr = false := by
      cases items with
      | nil => exact absurd rfl hne
      | cons i t =>
        have hio : JItem.isObj i = true := hobj i (List.mem_cons_self i t)
        cases i with
        | str s => simp [JItem.isObj] at hio
        | obj o => simp [List.all_cons, JItem.isStr]
        | other => simp [JItem.isObj] at hio
    have hO : items.all JItem.isObj = true := List.all_eq_true.mpr hobj
    have hOE : (objsPre items).isEmpty = true := by
      rw [objsPre, List.isEmpty_iff, List.filter_eq_nil_iff]
      intro a ha
      rcases List.mem_map.mp ha with ⟨u, hu, rfl⟩
      rcases List.mem_filterMap.mp hu with ⟨i, hi, hget⟩
      simp [huse i hi u hget]
    simp [loadList, hE, hS, hO, hOE]
  · intro env fuel d e hp hl
    cases hL : env.listFileExists with
    | false => simp [runController, hL]
    | true => simp [runController, hL, hp, hl]

/-- Claim C5, witness: the record input `[{}, {"username": "@"}]` (no
usable username) fails with the no-usernames error, and the Controller
run over a non-array input exits cleanly with an empty log. -/
theorem c5_loader_error_witness :
    loadList (.arr [JItem.obj none, JItem.obj (some "@")]) =
      .error .noUsernamesError ∧
    runController envFormatErr 0 = (some true, []) := by
  refine ⟨?_, ?_⟩
  · refine c5_loader_error_taxonomy.2.2.1 [JItem.obj none, JItem.obj (some "@")]
      (by decide) (by decide) ?_
    intro i hi u hu
    rcases List.mem_cons.mp hi with rfl | hi2
    · exact Option.noConfusion hu
    · rcases List.mem_singleton.mp hi2 with rfl
      obtain rfl : "@" = u := Option.some.inj hu
      decide
  · exact c5_loader_error_taxonomy.2.2.2 envFormatErr 0 .nonArray .formatError rfl rfl

/-- Claim C6, counterexample: the `try/finally` that closes the session
covers only the monitoring loop (main.py:261-289); a `ZeroDivisionError`
in the follow pass (batch size 0, main.py:252) escapes
`follow_then_unfollow_loop` with the session still open. -/
theorem c6_session_left_open_cex :
    ¬ (∀ (env : Env) (fuel : Nat), (runController env fuel).1 ≠ some false) :=
  fun h => h envBatchZero 0 rfl

/-- Claim C6 (amended): the session is closed on every exit path of
list loading and of the monitoring loop, including interrupt; but an
exception or interrupt during the follow pass exits with the session
open.  With no follow-pass interrupt and a positive batch size, no run
exits unclosed. -/
theorem c6_session_closed_amended :
    ∀ (env : Env) (fuel : Nat), env.followIntr = none → 1 ≤ env.batch →
      (runController env fuel).1 ≠ some false := by
  intro env fuel hI hB
  cases hL : env.listFileExists with
  | false => simp [runController, hL]
  | true =>
    cases hp : env.parsed with
    | error u => simp [runController, hL, hp]
    | ok d =>
      cases hl : loadList d with
      | error e => simp [runController, hL, hp, hl]
      | ok us =>
        have hb0 : env.batch ≠ 0 := Nat.one_le_iff_ne_zero.mp hB
        have hcr : (followPhase env.followRes env.batch env.followIntr us).2 = false := by
          rw [hI, followPhase_no_crash env.followRes env.batch us hb0]
        simp [runController, hL, hp, hl, hcr]
        exact monitorRun_not_some_false env.monitorO env.monitorIntr fuel 0 us

/-- Claim C6, witness: a normal run never exits with the session open. -/
theorem c6_session_closed_witness :
    (runController envMonitor 1).1 ≠ some false :=
  c6_session_closed_amended envMonitor 1 rfl (by decide)

/-- Claim C10, counterexample: the claim quantifies over items that
normalize to empty, but `["@"]` — whose sole item normalizes to empty —
yields the nonempty target list `[""]` (the pre-normalization filter only
checks the trimmed raw item), so the run does not proceed with an empty
Target List. -/
theorem c10_all_at_item_cex :
    ¬ (∀ items : List JItem, items ≠ [] →
        (∀ i ∈ items, ∃ s, i = JItem.str s ∧ normalize s = "") →
        loadList (.arr items) = .ok []) := by
  intro h
  have h2 := h [JItem.str "@"] (by decide)
    (fun i hi => by
      rcases List.mem_singleton.mp hi with rfl
      exact ⟨"@", rfl, by decide⟩)
  have h1 : loadList (.arr [JItem.str "@"]) = .ok [""] := rfl
  rw [h1] at h2
  exact absurd (Except.ok.inj h2) (by decide)

/-- Claim C10 (amended): for a nonempty all-strings input whose items all
trim to the empty string, no list-parsing error is raised: the Target
List is empty, the follow pass performs zero attempts, monitoring starts
with an empty working set and exits at once, and the run ends cleanly
with the session closed and an empty log. -/
theorem c10_whitespace_only_clean_run :
    ∀ (env : Env) (items : List JItem) (fuel : Nat),
      env.listFileExists = true → env.parsed = .ok (.arr items) → items ≠ [] →
      (∀ i ∈ items, ∃ s, i = JItem.str s ∧ pyStrip s = "") →
      runController env (fuel + 1) = (some true, []) := by
  intro env items fuel hL hp hne hws
  have hE : items.isEmpty = false := by
    cases items with
    | nil => exact absurd rfl hne
    | cons i t => rfl
  have hS : items.all JItem.isStr = true := by
    rw [List.all_eq_true]
    intro i hi
    rcases hws i hi with ⟨s, rfl, _⟩
    rfl
  have hpre : stringsPre items = [] := by
    rw [stringsPre]
    have hf : (items.filterMap getStr).filter (fun u => pyStrip u != "") = [] := by
      rw [List.filter_eq_nil_iff]
      intro a ha
      rcases List.mem_filterMap.mp ha with ⟨i, hi, hget⟩
      rcases hws i hi with ⟨s, rfl, hstrip⟩
      obtain rfl : s = a := Option.some.inj hget
      simp [hstrip]
    rw [hf]
    rfl
  have hload : loadList (.arr items) = .ok [] := by
    simp [loadList, hE, hS]
    rw [hpre]
    rfl
  have hm : monitorRun env.monitorO env.monitorIntr 0 (fuel + 1) ([] : List String) =
      (some true, []) := by
    simp [monitorRun]
  simp [runController, hL, hp, hload, followPhase, followAux, hm]

/-- Claim C10, witness: the amended theorem on input `[" "]` (with batch
size 0, which is harmless because the follow pass has nothing to do). -/
theorem c10_whitespace_only_witness :
    runController envWhitespace 1 = (some true, []) :=
  c10_whitespace_only_clean_run envWhitespace [JItem.str " "] 0 rfl rfl (by decide)
    (fun i hi => by
      rcases List.mem_singleton.mp hi with rfl
      exact ⟨" ", rfl, by decide⟩)

end IGBot
